import Mathlib

/-!
Shallow embedding of the eventsourcing-sqlalchemy recording layer.

The definitions below translate the recorder and datastore logic of
eventsourcing_sqlalchemy/recorders.py and eventsourcing_sqlalchemy/datastore.py
into pure Lean functions over an explicit database state.  SQL queries become
filter/sort/slice pipelines over a list of rows; a transaction is a state
transformer that either commits its result or rolls back to the input state;
the transaction coordinator is a small state machine whose backend-facing
primitives (begin, commit, rollback, close, lock release) are recorded as an
action trace.
-/

/-- Binary payloads are modelled as lists of byte values. -/
abbrev Bytes := List Nat

/-- A binary column value as handed back by the backend: either concrete bytes
or a memoryview over the buffer; both carry the same byte content. -/
inductive ByteRep where
  | bytes (b : Bytes)
  | memview (b : Bytes)
deriving DecidableEq, Repr

/-- Byte content of either representation (Python bytes(x)). -/
def ByteRep.toBytes : ByteRep → Bytes
  | .bytes b => b
  | .memview b => b

/-- A stored event as passed to and returned by the recorders (shape per the
data model: opaque originator id, integer version, topic string, binary state). -/
structure StoredEvent where
  originator_id : String
  originator_version : Int
  topic : String
  state : Bytes
deriving DecidableEq, Repr

/-- A row of a stored-events table (models.StoredEventRecord): auto-increment
notification id plus the event fields; the state column's read-back
representation is backend-chosen. -/
structure StoredEventRecordRow where
  id : Int
  originator_id : String
  originator_version : Int
  topic : String
  state : ByteRep
deriving DecidableEq, Repr

/-- A notification returned by select_notifications. -/
structure Notification where
  id : Int
  originator_id : String
  originator_version : Int
  topic : String
  state : Bytes
deriving DecidableEq, Repr

/-- A tracking value passed to insert_tracking. -/
structure Tracking where
  application_name : String
  notification_id : Int
deriving DecidableEq, Repr

/-- A row of the notification-tracking table (models.NotificationTrackingRecord). -/
structure NotificationTrackingRow where
  application_name : String
  notification_id : Int
deriving DecidableEq, Repr

/-- Committed database state seen by one recorder: the events table, the
notification-tracking table, and the auto-increment counter feeding the events
table's id column. -/
structure DB where
  events : List StoredEventRecordRow
  tracking : List NotificationTrackingRow
  nextId : Int
deriving DecidableEq, Repr

/-- The persistence error taxonomy of eventsourcing.persistence, as raised by
Transaction exit and by the recorders. -/
inductive TaxKind where
  | interfaceError
  | dataError
  | operationalError
  | integrityError
  | internalError
  | programmingError
  | notSupportedError
  | databaseError
  | persistenceError
deriving DecidableEq, Repr

/-- Exceptions a recorder entry point can raise: a taxonomy error, or one of the
Python builtins used directly by the source. -/
inductive RaisedExc where
  | taxonomy (k : TaxKind)
  | pyNotImplementedError
  | pyValueError
deriving DecidableEq, Repr

/-- Transactional execution of a session body against committed state
(datastore.Transaction used as a context manager with commit intent): the body
transforms the session state and may raise; on success the new state is
committed, on an exception the session is rolled back so the committed state is
unchanged and the exception propagates. -/
def runTransaction {A : Type} (db : DB) (body : DB → Except TaxKind (DB × A)) :
    DB × Except TaxKind A :=
  match body db with
  | .ok (db2, a) => (db2, .ok a)
  | .error e => (db, .error e)

/-- Rows of the tracking table for one application name
(the filter in SQLAlchemyTrackingRecorder.max_tracking_id). -/
def trackingRowsForApp (db : DB) (application_name : String) :
    List NotificationTrackingRow :=
  db.tracking.filter (fun r => r.application_name == application_name)

/-- SQLAlchemyTrackingRecorder.max_tracking_id: filter by application name,
order by notification id descending, take the first row's notification id, or
none when the query is empty. -/
def max_tracking_id (db : DB) (application_name : String) : Option Int :=
  match List.insertionSort (fun a b => b.notification_id ≤ a.notification_id)
      (trackingRowsForApp db application_name) with
  | [] => none
  | r :: _ => some r.notification_id

/-- Modelled from the spec: has_tracking_id is inherited from the eventsourcing
library's TrackingRecorder base class, which is not among this repository's
sources.  Per the spec, a tracking id is already covered exactly when it is
less than or equal to the current committed maximum for that application name. -/
def has_tracking_id (db : DB) (application_name : String) (notification_id : Int) :
    Bool :=
  match max_tracking_id db application_name with
  | none => false
  | some m => notification_id ≤ m

/-- In-place update of the first tracking row for an application name
(the ORM assignment existing.notification_id = tracking.notification_id against
the row returned by query(...).filter_by(application_name=...).first()). -/
def updateFirstTracking :
    List NotificationTrackingRow → String → Int → List NotificationTrackingRow
  | [], _, _ => []
  | r :: rs, app, nid =>
    if r.application_name == app then { r with notification_id := nid } :: rs
    else r :: updateFirstTracking rs app nid

/-- SQLAlchemyTrackingRecorder._insert_tracking (session body): raise
IntegrityError when the tracking id is already covered; otherwise update the
existing watermark row in place, or add a fresh row when none exists. -/
def insertTrackingSession (db : DB) (tracking : Tracking) : Except TaxKind DB :=
  if has_tracking_id db tracking.application_name tracking.notification_id then
    .error .integrityError
  else if (db.tracking.find?
      (fun r => r.application_name == tracking.application_name)).isSome then
    .ok { db with
          tracking := updateFirstTracking db.tracking tracking.application_name
                        tracking.notification_id }
  else
    .ok { db with
          tracking := db.tracking ++
                        [⟨tracking.application_name, tracking.notification_id⟩] }

/-- SQLAlchemyTrackingRecorder.insert_tracking: run _insert_tracking inside a
commit transaction. -/
def insert_tracking (db : DB) (tracking : Tracking) : DB × Except TaxKind Unit :=
  runTransaction db (fun s => (insertTrackingSession s tracking).map (fun s2 => (s2, ())))

/-- Records built by _insert_stored_events: one row per stored event, assigned
consecutive auto-increment ids at flush time, state stored as concrete bytes. -/
def mkStoredEventRecords : Int → List StoredEvent → List StoredEventRecordRow
  | _, [] => []
  | n, e :: es =>
    { id := n, originator_id := e.originator_id,
      originator_version := e.originator_version, topic := e.topic,
      state := .bytes e.state } :: mkStoredEventRecords (n + 1) es

/-- SQLAlchemyApplicationRecorder._insert_stored_events (session body): add one
record per stored event and flush, returning the auto-incremented ids. -/
def insertStoredEventsSession (db : DB) (stored_events : List StoredEvent) :
    DB × List Int :=
  let records := mkStoredEventRecords db.nextId stored_events
  ({ db with
     events := db.events ++ records,
     nextId := db.nextId + stored_events.length },
   records.map (fun r => r.id))

/-- SQLAlchemyAggregateRecorder.insert_events: insert the stored events inside a
commit transaction. -/
def insert_events (db : DB) (stored_events : List StoredEvent) :
    DB × Except TaxKind Unit :=
  runTransaction db (fun s => .ok ((insertStoredEventsSession s stored_events).1, ()))

/-- Session body of SQLAlchemyApplicationRecorder.insert_events as inherited by
SQLAlchemyProcessRecorder: first _insert_events, which for the process recorder
inserts the tracking watermark (raising IntegrityError on a duplicate), then
_insert_stored_events. -/
def processInsertEventsSession (db : DB) (stored_events : List StoredEvent)
    (tracking : Option Tracking) : Except TaxKind (DB × List Int) :=
  match tracking with
  | some t =>
    (insertTrackingSession db t).map (fun db1 => insertStoredEventsSession db1 stored_events)
  | none => .ok (insertStoredEventsSession db stored_events)

/-- SQLAlchemyProcessRecorder.insert_events (transactional path): run the
tracking insert and the event insert inside one commit transaction. -/
def process_insert_events (db : DB) (stored_events : List StoredEvent)
    (tracking : Option Tracking) : DB × Except TaxKind (List Int) :=
  runTransaction db (fun s => processInsertEventsSession s stored_events tracking)

/-- Conversion of a selected row back to a StoredEvent, normalizing a
memoryview state to concrete bytes (the conditional in select_events). -/
def rowToStoredEvent (r : StoredEventRecordRow) : StoredEvent :=
  { originator_id := r.originator_id,
    originator_version := r.originator_version,
    topic := r.topic,
    state := match r.state with | .memview b => b | .bytes b => b }

/-- Filter stage of SQLAlchemyAggregateRecorder.select_events: filter by
originator id, then by version strictly above gt and at most lte when given. -/
def selectEventsFiltered (db : DB) (originator_id : String) (gt lte : Option Int) :
    List StoredEventRecordRow :=
  let q := db.events.filter (fun r => r.originator_id == originator_id)
  let q := match gt with
    | none => q
    | some g => q.filter (fun r => decide (g < r.originator_version))
  match lte with
  | none => q
  | some l => q.filter (fun r => decide (r.originator_version ≤ l))

/-- Order stage of select_events: by originator version, descending when
requested. -/
def selectEventsSorted (db : DB) (originator_id : String) (gt lte : Option Int)
    (desc : Bool) : List StoredEventRecordRow :=
  if desc then
    List.insertionSort (fun a b => b.originator_version ≤ a.originator_version)
      (selectEventsFiltered db originator_id gt lte)
  else
    List.insertionSort (fun a b => a.originator_version ≤ b.originator_version)
      (selectEventsFiltered db originator_id gt lte)

/-- Row pipeline of select_events: filter, order, and slice to the first limit
rows when a limit is given. -/
def selectEventsRows (db : DB) (originator_id : String) (gt lte : Option Int)
    (desc : Bool) (limit : Option Nat) : List StoredEventRecordRow :=
  match limit with
  | none => selectEventsSorted db originator_id gt lte desc
  | some n => (selectEventsSorted db originator_id gt lte desc).take n

/-- SQLAlchemyAggregateRecorder.select_events. -/
def select_events (db : DB) (originator_id : String) (gt lte : Option Int)
    (desc : Bool) (limit : Option Nat) : List StoredEvent :=
  (selectEventsRows db originator_id gt lte desc limit).map rowToStoredEvent

/-- Conversion of a selected row to a Notification, normalizing a memoryview
state to concrete bytes (the conditional in select_notifications). -/
def notificationOfRow (r : StoredEventRecordRow) : Notification :=
  { id := r.id,
    originator_id := r.originator_id,
    originator_version := r.originator_version,
    topic := r.topic,
    state := match r.state with | .memview b => b | .bytes b => b }

/-- Filter stage of SQLAlchemyApplicationRecorder.select_notifications: filter
by id at least (or strictly above) start when given, by id at most stop when
given, and by topic membership when the topic list is nonempty. -/
def selectNotificationsFiltered (db : DB) (start : Option Int)
    (stop : Option Int) (topics : List String) (inclusive_of_start : Bool) :
    List StoredEventRecordRow :=
  let q := db.events
  let q := match start with
    | none => q
    | some s =>
      if inclusive_of_start then q.filter (fun r => decide (s ≤ r.id))
      else q.filter (fun r => decide (s < r.id))
  let q := match stop with
    | none => q
    | some s => q.filter (fun r => decide (r.id ≤ s))
  if topics.isEmpty then q else q.filter (fun r => topics.contains r.topic)

/-- Row pipeline of select_notifications: filter, order ascending by id (an
index-friendly scan), and slice to the first limit rows. -/
def selectNotificationRows (db : DB) (start : Option Int) (limit : Nat)
    (stop : Option Int) (topics : List String) (inclusive_of_start : Bool) :
    List StoredEventRecordRow :=
  (List.insertionSort (fun a b => a.id ≤ b.id)
    (selectNotificationsFiltered db start stop topics inclusive_of_start)).take
    limit

/-- SQLAlchemyApplicationRecorder.select_notifications. -/
def select_notifications (db : DB) (start : Option Int) (limit : Nat)
    (stop : Option Int) (topics : List String) (inclusive_of_start : Bool) :
    List Notification :=
  (selectNotificationRows db start limit stop topics inclusive_of_start).map
    notificationOfRow

/-- Backend read-back of the events table under the backend's own binary
representation: every stored payload may come back rewrapped (for instance as a
memoryview) with the same byte content. -/
def rewrapEvents (db : DB) (wrap : Bytes → ByteRep) : DB :=
  { db with events := db.events.map (fun r => { r with state := wrap r.state.toBytes }) }

/-- SQLAlchemyApplicationRecorder.subscribe: a postgresql dialect yields a
subscription, any other dialect raises the Python builtin NotImplementedError. -/
def subscribe (dialect_name : String) : Except RaisedExc Unit :=
  if dialect_name == "postgresql" then .ok () else .error .pyNotImplementedError

/-- The declarative base record classes of models.py that record classes can be
defined from. -/
inductive BaseCls where
  | storedEventRecord
  | snapshotRecord
  | notificationTrackingRecord
deriving DecidableEq, Repr

/-- An index entry of a base class's table args. -/
structure IndexArg where
  name : String
  unique : Bool
  expressions : List String
deriving DecidableEq, Repr

/-- Table args declared on the base classes (models.py): the stored-event base
carries one unique index over originator id and version, the others none. -/
def baseTableArgs : BaseCls → List IndexArg
  | .storedEventRecord =>
    [⟨"stored_aggregate_event_index", true, ["originator_id", "originator_version"]⟩]
  | .snapshotRecord => []
  | .notificationTrackingRecord => []

/-- A dynamically created record class: class name, table name, table args
(indexes renamed per table), and the base class it derives from. -/
structure RecordCls where
  cls_name : String
  table_name : String
  table_args : List IndexArg
  base : BaseCls
deriving DecidableEq, Repr

/-- The process-wide registry mapping a table name to its record class and the
base class it was defined from. -/
abbrev Registry := List (String × (RecordCls × BaseCls))

/-- The record class built by define_record_class when the table name is not yet
registered: the dynamic type(...) call deriving from the base class, with the
table name set and each index table arg renamed for the table. -/
def newRecordClass (cls_name table_name : String) (base_cls : BaseCls) : RecordCls :=
  { cls_name := cls_name, table_name := table_name,
    table_args := (baseTableArgs base_cls).map
      (fun i => { i with name := table_name ++ "_aggregate_idx" }),
    base := base_cls }

/-- SQLAlchemyDatastore.define_record_class: look the table name up in the
registry; when present, fail with ValueError if the base class differs and
otherwise return the registered class unchanged; when absent, build a new
record class (renaming index table args for the table) and register it.  The
returned registry is the (possibly extended) registry. -/
def define_record_class (reg : Registry) (cls_name table_name : String)
    (base_cls : BaseCls) : Except RaisedExc RecordCls × Registry :=
  match reg.find? (fun kv => kv.1 == table_name) with
  | some kv =>
    if kv.2.2 ≠ base_cls then (.error .pyValueError, reg)
    else (.ok kv.2.1, reg)
  | none =>
    let record_class : RecordCls := newRecordClass cls_name table_name base_cls
    (.ok record_class, reg ++ [(table_name, (record_class, base_cls))])

/-- A lock a transaction can hold: the datastore's access lock (sqlite
in-memory) or its write lock (sqlite file-backed). -/
inductive HeldLock where
  | access
  | write
deriving DecidableEq, Repr

/-- Which locks the datastore constructed: an access lock for a sqlite
in-memory url, a write lock for any other sqlite url, neither otherwise. -/
inductive LockPolicy where
  | noLocks
  | accessLock
  | writeLock
deriving DecidableEq, Repr

/-- An in-flight transaction handle (datastore.Transaction). -/
structure Txn where
  commit : Bool
  lock : Option HeldLock
  nested_level : Nat
  is_scoped_session : Bool
deriving DecidableEq, Repr

/-- SQLAlchemyDatastore.transaction: when the context already holds a
transaction, reuse it, raising ProgrammingError for a commit-intent request
inside a no-commit transaction; otherwise acquire the lock dictated by the lock
policy and the commit intent and create a fresh handle.  The Bool records
whether a fresh handle was created. -/
def datastore_transaction (current : Option Txn) (commit : Bool)
    (policy : LockPolicy) (scopedSession : Bool) : Except TaxKind (Txn × Bool) :=
  match current with
  | some t =>
    if commit && !t.commit then .error .programmingError
    else .ok (t, false)
  | none =>
    let lock : Option HeldLock :=
      match policy with
      | .accessLock => some .access
      | .writeLock => if commit then some .write else none
      | .noLocks => none
    .ok ({ commit := commit, lock := lock, nested_level := 0,
           is_scoped_session := scopedSession }, true)

/-- Transaction entry: begin a physical transaction only at nesting level zero
of a non-scoped session; always increment the nesting level.  The Bool records
whether session.begin was invoked. -/
def transaction_enter (t : Txn) : Txn × Bool :=
  ({ t with nested_level := t.nested_level + 1 },
   t.nested_level == 0 && !t.is_scoped_session)

/-- A failure surfaced by sqlalchemy during commit or rollback; on
operationalErr the Bool records whether its first argument is a raw
sqlite3.OperationalError. -/
inductive SAErr where
  | interfaceErr
  | dataErr
  | operationalErr (sqlite3Wrapped : Bool)
  | integrityErr
  | internalErr
  | programmingErr
  | notSupportedErr
  | databaseErr
  | otherErr
deriving DecidableEq, Repr

/-- A backend failure during commit or rollback: either a raw
sqlite3.OperationalError, or a wrapped sqlalchemy.exc error. -/
inductive BackendExc where
  | rawSqlite3Operational
  | sa (e : SAErr)
deriving DecidableEq, Repr

/-- A backend-facing primitive performed by transaction exit. -/
inductive BackendAction where
  | commitA
  | rollbackA
  | closeA
  | releaseA
deriving DecidableEq, Repr

/-- Outcome of transaction exit: normal return, propagation of the in-progress
exception, a translated taxonomy error with its cause, an untranslated raw
backend error, or a failure raised by session.close itself. -/
inductive ExitResult where
  | noError
  | reraised
  | taxonomy (k : TaxKind) (cause : SAErr)
  | rawLeak
  | closeFailure
deriving DecidableEq, Repr

/-- The except-chain of Transaction exit: each sqlalchemy failure maps to one
eventsourcing persistence error raised from the original failure (returned
alongside as the cause); an OperationalError wrapping a sqlite3
OperationalError is swallowed (none) exactly when the transaction holds a lock. -/
def translate_sa (e : SAErr) (lock : Option HeldLock) : Option (TaxKind × SAErr) :=
  match e with
  | .interfaceErr => some (.interfaceError, e)
  | .dataErr => some (.dataError, e)
  | .operationalErr sqlite3Wrapped =>
    if sqlite3Wrapped && lock.isSome then none else some (.operationalError, e)
  | .integrityErr => some (.integrityError, e)
  | .internalErr => some (.internalError, e)
  | .programmingErr => some (.programmingError, e)
  | .notSupportedErr => some (.notSupportedError, e)
  | .databaseErr => some (.databaseError, e)
  | .otherErr => some (.persistenceError, e)

/-- Transaction exit: decrement the nesting level and, at the outermost level
only, run the commit or rollback branch (whose backend failure, if any, is
primaryExc), translate sqlalchemy failures through the except-chain — a raw
sqlite3 OperationalError is swallowed only around the no-commit rollback — and
in the finally block release any held lock and then close a non-scoped session
(closeFails tells whether close itself raises).  Returns the updated handle,
the ordered backend actions performed, and the outcome. -/
def transaction_exit (t : Txn) (excVal : Bool) (primaryExc : Option BackendExc)
    (closeFails : Bool) : Txn × List BackendAction × ExitResult :=
  let t2 : Txn := { t with nested_level := t.nested_level - 1 }
  if t2.nested_level = 0 then
    let primaryActions : List BackendAction :=
      if t.is_scoped_session then []
      else if excVal then [.rollbackA]
      else if t.commit then [.commitA]
      else [.rollbackA]
    let tryResult : ExitResult :=
      if t.is_scoped_session then (if excVal then .reraised else .noError)
      else
        match primaryExc with
        | none => if excVal then .reraised else .noError
        | some .rawSqlite3Operational =>
          if !excVal && !t.commit then .noError else .rawLeak
        | some (.sa e) =>
          match translate_sa e t.lock with
          | some (k, c) => .taxonomy k c
          | none => if excVal then .reraised else .noError
    let finallyActions : List BackendAction :=
      (if t.lock.isSome then [.releaseA] else []) ++
      (if t.is_scoped_session then [] else [.closeA])
    (t2, primaryActions ++ finallyActions,
     if closeFails && !t.is_scoped_session then .closeFailure else tryResult)
  else
    (t2, [], if excVal then .reraised else .noError)

/-- At most one tracking row per application name. -/
def atMostOnePerApp (rows : List NotificationTrackingRow) : Prop :=
  rows.Pairwise (fun a b => a.application_name ≠ b.application_name)

/-- An events-table row with a given notification id, used for the concrete
notification-stream example. -/
def exampleRow (n : Int) : StoredEventRecordRow :=
  { id := n, originator_id := "agg", originator_version := n, topic := "topic",
    state := .bytes [] }

/-- A committed state whose notification stream has ids 1 to 10. -/
def dbTen : DB :=
  { events := [exampleRow 1, exampleRow 2, exampleRow 3, exampleRow 4, exampleRow 5,
               exampleRow 6, exampleRow 7, exampleRow 8, exampleRow 9, exampleRow 10],
    tracking := [], nextId := 11 }

/-- Sorting with a total, transitive decidable relation yields a pairwise-sorted
list (wrapper over the library's sorting correctness). -/
theorem pairwiseInsertionSortOf {α : Type} (r : α → α → Prop) [DecidableRel r]
    (htot : ∀ a b, r a b ∨ r b a) (htr : ∀ a b c, r a b → r b c → r a c)
    (l : List α) : (List.insertionSort r l).Pairwise r := by
  haveI : IsTotal α r := ⟨htot⟩
  haveI : IsTrans α r := ⟨htr⟩
  exact List.sorted_insertionSort r l

/-- Evaluation of define_record_class when the table name is registered. -/
theorem defineRecordClassFound (reg : Registry) (cn tn : String) (b : BaseCls) (kv)
    (hfind : reg.find? (fun kv => kv.1 == tn) = some kv) :
    define_record_class reg cn tn b =
      if kv.2.2 = b then (.ok kv.2.1, reg) else (.error .pyValueError, reg) := by
  unfold define_record_class
  rw [hfind]
  by_cases hb : kv.2.2 = b
  · rw [if_pos hb]
    dsimp only
    rw [if_neg (not_not_intro hb)]
  · rw [if_neg hb]
    dsimp only
    rw [if_pos hb]

/-- Evaluation of define_record_class when the table name is unregistered. -/
theorem defineRecordClassNotFound (reg : Registry) (cn tn : String) (b : BaseCls)
    (hfind : reg.find? (fun kv => kv.1 == tn) = none) :
    define_record_class reg cn tn b =
      (.ok (newRecordClass cn tn b), reg ++ [(tn, (newRecordClass cn tn b, b))]) := by
  unfold define_record_class
  rw [hfind]

/-- C9: define_record_class is idempotent on the registry: once a table name is
registered from some base class, defining it again (with any class name) and
the same base class returns the record class already registered and leaves the
registry unchanged, while defining it with a different base class fails with
ValueError and also leaves the registry unchanged. -/
theorem c9_define_record_class_idempotent (reg reg2 : Registry)
    (cn tn cn2 : String) (b b2 : BaseCls) (rc : RecordCls)
    (h : define_record_class reg cn tn b = (.ok rc, reg2)) :
    define_record_class reg2 cn2 tn b = (.ok rc, reg2) ∧
    (b2 ≠ b → define_record_class reg2 cn2 tn b2 = (.error .pyValueError, reg2)) := by
  cases hfind : reg.find? (fun kv => kv.1 == tn) with
  | some kv =>
    rw [defineRecordClassFound reg cn tn b kv hfind] at h
    by_cases hb : kv.2.2 = b
    · rw [if_pos hb] at h
      simp only [Prod.mk.injEq, Except.ok.injEq] at h
      obtain ⟨h1, h2⟩ := h
      subst h1
      subst h2
      refine ⟨?_, fun hne => ?_⟩
      · rw [defineRecordClassFound reg cn2 tn b kv hfind, if_pos hb]
      · rw [defineRecordClassFound reg cn2 tn b2 kv hfind,
          if_neg (by rw [hb]; exact Ne.symm hne)]
    · rw [if_neg hb] at h
      exact absurd h (by simp)
  | none =>
    rw [defineRecordClassNotFound reg cn tn b hfind] at h
    simp only [Prod.mk.injEq, Except.ok.injEq] at h
    obtain ⟨h1, h2⟩ := h
    subst h1
    subst h2
    have hf2 : (reg ++ [(tn, (newRecordClass cn tn b, b))]).find?
        (fun kv => kv.1 == tn) = some (tn, (newRecordClass cn tn b, b)) := by
      rw [List.find?_append, hfind]
      simp
    refine ⟨?_, fun hne => ?_⟩
    · rw [defineRecordClassFound _ cn2 tn b _ hf2, if_pos rfl]
    · rw [defineRecordClassFound _ cn2 tn b2 _ hf2, if_neg (Ne.symm hne)]

/-- C9 witness: after registering table t from the stored-event base, defining
t again with the same base returns the registered class and the same registry,
and defining t from the snapshot base fails with ValueError. -/
theorem c9_define_record_class_idempotent_witness :
    define_record_class [("t", (newRecordClass "Rec" "t" .storedEventRecord,
        BaseCls.storedEventRecord))] "Rec2" "t" .storedEventRecord =
      (.ok (newRecordClass "Rec" "t" .storedEventRecord),
       [("t", (newRecordClass "Rec" "t" .storedEventRecord,
        BaseCls.storedEventRecord))]) ∧
    define_record_class [("t", (newRecordClass "Rec" "t" .storedEventRecord,
        BaseCls.storedEventRecord))] "Rec2" "t" .snapshotRecord =
      (.error .pyValueError,
       [("t", (newRecordClass "Rec" "t" .storedEventRecord,
        BaseCls.storedEventRecord))]) := by
  have h := c9_define_record_class_idempotent []
    [("t", (newRecordClass "Rec" "t" .storedEventRecord, BaseCls.storedEventRecord))]
    "Rec" "t" "Rec2" .storedEventRecord .snapshotRecord
    (newRecordClass "Rec" "t" .storedEventRecord) rfl
  exact ⟨h.1, h.2 (by decide)⟩

/-- C10 (amended): on a dialect other than postgresql, subscribe raises the
Python builtin NotImplementedError — an explicit unsupported-operation failure
rather than a silent no-op, though not the persistence taxonomy's
NotSupportedError — and on postgresql it returns a subscription. -/
theorem c10_subscribe_not_silent (d : String) :
    (d ≠ "postgresql" → subscribe d = .error RaisedExc.pyNotImplementedError) ∧
    (d = "postgresql" → subscribe d = .ok ()) := by
  refine ⟨fun h => ?_, fun h => ?_⟩
  · have hc : (d == "postgresql") = false := beq_eq_false_iff_ne.mpr h
    simp only [subscribe, hc, Bool.false_eq_true, if_false]
  · simp only [subscribe, h, beq_self_eq_true, if_true]

/-- C10 witness: concrete dialects exercising both branches. -/
theorem c10_subscribe_not_silent_witness :
    subscribe "sqlite" = .error RaisedExc.pyNotImplementedError ∧
    subscribe "postgresql" = .ok () :=
  ⟨(c10_subscribe_not_silent "sqlite").1 (by decide),
   (c10_subscribe_not_silent "postgresql").2 rfl⟩

/-- C10 counterexample: on the sqlite dialect, subscribe raises the Python
builtin NotImplementedError and not the persistence taxonomy's
NotSupportedError, so the claim that it raises NotSupportedError fails. -/
theorem c10_subscribe_counterexample :
    subscribe "sqlite" = .error RaisedExc.pyNotImplementedError ∧
    subscribe "sqlite" ≠ .error (RaisedExc.taxonomy TaxKind.notSupportedError) := by
  have hs : subscribe "sqlite" = .error RaisedExc.pyNotImplementedError := by
    simp [subscribe]
  refine ⟨hs, fun hcontra => ?_⟩
  rw [hs] at hcontra
  exact RaisedExc.noConfusion (Except.error.inj hcontra)

/-- C6: requesting a transaction while one is already open in the call context
reuses the outer transaction handle (no fresh handle, no lock acquisition), and
session.begin is invoked only at nesting level zero of a non-scoped session, so
the reused transaction never begins a second physical transaction; a nested
commit-intent request inside a no-commit transaction raises ProgrammingError
synchronously at request time; and no commit, rollback, close or release runs
when a nested (non-outermost) level exits. -/
theorem c6_nested_transaction_reuse (t : Txn) (commit : Bool) (policy : LockPolicy)
    (scopedSession : Bool) (excVal : Bool) (pe : Option BackendExc) (cf : Bool) :
    ((commit && !t.commit) = false →
      datastore_transaction (some t) commit policy scopedSession = .ok (t, false)) ∧
    (commit = true → t.commit = false →
      datastore_transaction (some t) commit policy scopedSession =
        .error .programmingError) ∧
    ((transaction_enter t).2 = true ↔
      (t.nested_level = 0 ∧ t.is_scoped_session = false)) ∧
    (2 ≤ t.nested_level → (transaction_exit t excVal pe cf).2.1 = []) := by
  refine ⟨fun h => ?_, fun h1 h2 => ?_, ?_, fun h2 => ?_⟩
  · simp only [datastore_transaction, h, Bool.false_eq_true, if_false]
  · simp only [datastore_transaction, h1, h2, Bool.not_false, Bool.and_self, if_true]
  · simp [transaction_enter]
  · dsimp only [transaction_exit]
    rw [if_neg (by omega)]

/-- C6 witness: a nested commit-intent request inside a no-commit transaction
fails synchronously, and a nested exit performs no backend action. -/
theorem c6_nested_transaction_reuse_witness :
    datastore_transaction (some ⟨false, none, 1, false⟩) true .noLocks false =
      .error .programmingError ∧
    (transaction_exit ⟨true, none, 2, false⟩ false none false).2.1 = [] :=
  ⟨(c6_nested_transaction_reuse ⟨false, none, 1, false⟩ true .noLocks false
      false none false).2.1 rfl rfl,
   (c6_nested_transaction_reuse ⟨true, none, 2, false⟩ true .noLocks false
      false none false).2.2.2 (by decide)⟩

/-- C7 (amended): every sqlalchemy failure surfaced during commit or rollback
is translated through the except-chain to exactly one error of the fixed
taxonomy with the original failure attached as its cause; a sqlite-wrapped
OperationalError is swallowed exactly when the transaction holds a lock —
access or write — and never for an unlocked backend. -/
theorem c7_error_translation (e : SAErr) (lock : Option HeldLock) :
    (translate_sa e lock = none ↔
      (e = .operationalErr true ∧ lock.isSome = true)) ∧
    (∀ k c, translate_sa e lock = some (k, c) → c = e) ∧
    (lock = none → ∃ k, translate_sa e lock = some (k, e)) := by
  refine ⟨?_, ?_, ?_⟩
  · cases e <;> try (rename_i w; cases w)
    all_goals cases lock <;> simp [translate_sa]
  · intro k c h
    cases e <;> try (rename_i w; cases w)
    all_goals cases lock <;> simp_all [translate_sa]
  · intro h
    subst h
    cases e <;> try (rename_i w; cases w)
    all_goals simp [translate_sa]

/-- C7 witness: with no lock held, a sqlite-wrapped OperationalError is not
swallowed but translated with its cause attached. -/
theorem c7_error_translation_witness :
    translate_sa (SAErr.operationalErr true) none =
      some (TaxKind.operationalError, SAErr.operationalErr true) ∧
    ¬(translate_sa (SAErr.operationalErr true) none = none) := by
  have h := c7_error_translation (SAErr.operationalErr true) none
  refine ⟨?_, fun hc => Bool.noConfusion (h.1.mp hc).2⟩
  obtain ⟨k, hk⟩ := h.2.2 rfl
  have hck := h.2.1 k (SAErr.operationalErr true) hk
  rfl

/-- C7 counterexample: a sqlite-wrapped OperationalError raised while rolling
back under the WRITE lock is swallowed — the exit of a commit-intent
write-locked transaction whose error-path rollback fails this way ends with the
original exception propagating and no OperationalError raised — so the claim
that swallowing happens only for an access-locked backend and never for a
write-locked one fails. -/
theorem c7_error_translation_counterexample :
    translate_sa (SAErr.operationalErr true) (some HeldLock.write) = none ∧
    (transaction_exit ⟨true, some HeldLock.write, 1, false⟩ true
        (some (.sa (.operationalErr true))) false).2.2 = .reraised := by
  decide

/-- C8: the access-lock policy acquires the access lock for every fresh
transaction whether or not it has commit intent; the write-lock policy acquires
the write lock only for commit-intent transactions, leaving read-only
transactions unlocked; and every exit path of an outermost transaction —
normal, error, or with a failing commit, rollback or close — releases an
acquired lock exactly once, and releases nothing when no lock was acquired. -/
theorem c8_lock_discipline (commit : Bool) (scopedSession : Bool) (t : Txn)
    (excVal : Bool) (pe : Option BackendExc) (cf : Bool) :
    (∀ tx isNew, datastore_transaction none commit .accessLock scopedSession =
        .ok (tx, isNew) → tx.lock = some .access ∧ isNew = true) ∧
    (∀ tx isNew, datastore_transaction none commit .writeLock scopedSession =
        .ok (tx, isNew) →
        tx.lock = (if commit then some .write else none) ∧ isNew = true) ∧
    (t.nested_level = 1 →
      ((transaction_exit t excVal pe cf).2.1.count .releaseA) =
        (if t.lock.isSome then 1 else 0)) := by
  refine ⟨fun tx isNew h => ?_, fun tx isNew h => ?_, fun h1 => ?_⟩
  · simp only [datastore_transaction, Except.ok.injEq, Prod.mk.injEq] at h
    obtain ⟨h2, h3⟩ := h
    subst h2
    exact ⟨rfl, h3.symm⟩
  · simp only [datastore_transaction, Except.ok.injEq, Prod.mk.injEq] at h
    obtain ⟨h2, h3⟩ := h
    subst h2
    exact ⟨rfl, h3.symm⟩
  · obtain ⟨tc, tl, tn, ts⟩ := t
    simp only at h1
    subst h1
    cases ts <;> cases excVal <;> cases tc <;> cases tl <;>
      simp [transaction_exit, List.count_append, List.count_cons, List.count_nil]

/-- C8 witness: a fresh access-locked read-only transaction holds the access
lock, and exiting an outermost write-locked transaction whose close fails still
releases the lock exactly once. -/
theorem c8_lock_discipline_witness :
    (⟨false, some HeldLock.access, 0, false⟩ : Txn).lock = some HeldLock.access ∧
    (transaction_exit ⟨true, some HeldLock.write, 1, false⟩ false none true).2.1.count
      .releaseA = 1 :=
  ⟨((c8_lock_discipline false false ⟨false, some HeldLock.access, 0, false⟩
      false none true).1 ⟨false, some HeldLock.access, 0, false⟩ true rfl).1,
   by
    have h := (c8_lock_discipline true false ⟨true, some HeldLock.write, 1, false⟩
      false none true).2.2 rfl
    simpa using h⟩

/-- Sorting a singleton list is the identity. -/
theorem insertionSortSingleton {α : Type} (r : α → α → Prop) [DecidableRel r]
    (x : α) : List.insertionSort r [x] = [x] := by
  simp [List.insertionSort, List.orderedInsert]

/-- A tracking id is covered exactly when the committed maximum for the
application exists and is at least the id. -/
theorem hasTrackingIdIff (db : DB) (app : String) (nid : Int) :
    has_tracking_id db app nid = true ↔
      ∃ m, max_tracking_id db app = some m ∧ nid ≤ m := by
  unfold has_tracking_id
  cases hm : max_tracking_id db app with
  | none => simp
  | some m => simp [decide_eq_true_eq]

/-- The session-level tracking insert fails exactly on a covered tracking id,
and only with IntegrityError. -/
theorem insertTrackingSessionError (db : DB) (t : Tracking) (e : TaxKind) :
    insertTrackingSession db t = .error e ↔
      (has_tracking_id db t.application_name t.notification_id = true ∧
       e = .integrityError) := by
  unfold insertTrackingSession
  by_cases hdup : has_tracking_id db t.application_name t.notification_id = true
  · rw [if_pos hdup]
    simp [hdup, eq_comm]
  · rw [if_neg hdup]
    by_cases hex : (db.tracking.find?
        (fun r => r.application_name == t.application_name)).isSome
    · rw [if_pos hex]
      simp [hdup]
    · rw [if_neg hex]
      simp [hdup]

/-- The in-place update preserves the sequence of application names. -/
theorem updateFirstTrackingMap (rows : List NotificationTrackingRow)
    (app : String) (nid : Int) :
    (updateFirstTracking rows app nid).map (fun r => r.application_name) =
      rows.map (fun r => r.application_name) := by
  induction rows with
  | nil => rfl
  | cons x xs ih =>
    unfold updateFirstTracking
    by_cases hx : x.application_name == app
    · rw [if_pos hx]
      simp
    · rw [if_neg hx]
      simpa using ih

/-- With at most one row per application and an existing row for the
application, the in-place update leaves exactly one row for the application,
carrying the new notification id. -/
theorem updateFirstTrackingFilter (rows : List NotificationTrackingRow)
    (app : String) (nid : Int) (r0 : NotificationTrackingRow)
    (hinv : rows.Pairwise (fun a b => a.application_name ≠ b.application_name))
    (hfind : rows.find? (fun r => r.application_name == app) = some r0) :
    (updateFirstTracking rows app nid).filter
        (fun r => r.application_name == app) =
      [{ r0 with notification_id := nid }] := by
  induction rows with
  | nil => simp at hfind
  | cons x xs ih =>
    rcases List.pairwise_cons.mp hinv with ⟨hx_ne, hxs⟩
    by_cases hx : (x.application_name == app) = true
    · simp only [List.find?_cons, hx] at hfind
      obtain rfl : x = r0 := Option.some.inj hfind
      unfold updateFirstTracking
      rw [if_pos hx]
      have hxs_nil : xs.filter (fun r => r.application_name == app) = [] := by
        apply List.filter_eq_nil_iff.mpr
        intro y hy
        have hne := hx_ne y hy
        simp only [beq_iff_eq] at hx ⊢
        rw [← hx]
        exact fun hc => hne hc.symm
      rw [List.filter_cons_of_pos (by simpa using hx), hxs_nil]
    · have hx2 : (x.application_name == app) = false := by simpa using hx
      simp only [List.find?_cons, hx2] at hfind
      unfold updateFirstTracking
      rw [if_neg hx]
      rw [List.filter_cons_of_neg (by simpa using hx)]
      exact ih hxs hfind

/-- A successful session-level tracking insert leaves events and the counter
unchanged, yields the inserted id as the application's maximum, preserves the
one-row-per-application invariant, and either updates the existing row in place
(same application-name sequence) or appends one fresh row. -/
theorem insertTrackingSessionOk (db : DB) (t : Tracking) (db1 : DB)
    (hinv : atMostOnePerApp db.tracking)
    (h : insertTrackingSession db t = .ok db1) :
    db1.events = db.events ∧ db1.nextId = db.nextId ∧
    max_tracking_id db1 t.application_name = some t.notification_id ∧
    atMostOnePerApp db1.tracking ∧
    db1.tracking.map (fun r => r.application_name) =
      (if (db.tracking.find? (fun r => r.application_name ==
          t.application_name)).isSome = true
       then db.tracking.map (fun r => r.application_name)
       else db.tracking.map (fun r => r.application_name) ++
         [t.application_name]) := by
  unfold insertTrackingSession at h
  by_cases hdup : has_tracking_id db t.application_name t.notification_id = true
  · rw [if_pos hdup] at h
    exact absurd h (by simp)
  · rw [if_neg hdup] at h
    by_cases hex : (db.tracking.find?
        (fun r => r.application_name == t.application_name)).isSome = true
    · rw [if_pos hex] at h
      have hdb1 := (Except.ok.inj h).symm
      obtain ⟨r0, hr0⟩ := Option.isSome_iff_exists.mp hex
      subst hdb1
      refine ⟨rfl, rfl, ?_, ?_, ?_⟩
      · unfold max_tracking_id trackingRowsForApp
        dsimp only
        rw [updateFirstTrackingFilter db.tracking t.application_name
          t.notification_id r0 hinv hr0]
        rw [insertionSortSingleton]
      · have hm := updateFirstTrackingMap db.tracking t.application_name
          t.notification_id
        have hpm : ((updateFirstTracking db.tracking t.application_name
            t.notification_id).map (fun r => r.application_name)).Pairwise Ne := by
          rw [hm]
          exact List.pairwise_map.mpr hinv
        exact List.pairwise_map.mp hpm
      · dsimp only
        rw [if_pos hex, updateFirstTrackingMap]
    · rw [if_neg hex] at h
      have hdb1 := (Except.ok.inj h).symm
      subst hdb1
      have hnone : db.tracking.find?
          (fun r => r.application_name == t.application_name) = none := by
        cases hf : db.tracking.find?
            (fun r => r.application_name == t.application_name) with
        | none => rfl
        | some v => rw [hf] at hex; simp at hex
      have hfilter_nil : db.tracking.filter
          (fun r => r.application_name == t.application_name) = [] := by
        apply List.filter_eq_nil_iff.mpr
        intro y hy
        exact List.find?_eq_none.mp hnone y hy
      refine ⟨rfl, rfl, ?_, ?_, ?_⟩
      · unfold max_tracking_id trackingRowsForApp
        dsimp only
        rw [List.filter_append, hfilter_nil, List.nil_append,
          List.filter_cons_of_pos (by simp), List.filter_nil,
          insertionSortSingleton]
      · unfold atMostOnePerApp
        dsimp only
        apply List.pairwise_append.mpr
        refine ⟨hinv, List.pairwise_singleton _ _, ?_⟩
        intro a ha b hb
        have hb2 : b = ⟨t.application_name, t.notification_id⟩ := by
          simpa using hb
        subst hb2
        have hne := List.find?_eq_none.mp hnone a ha
        simpa using hne
      · dsimp only
        rw [if_neg hex, List.map_append]
        simp

/-- C2: insert_tracking raises IntegrityError exactly when the tracking id is
at most the committed maximum for the application (and raises nothing else,
leaving the state unchanged on failure); on success the application's maximum
becomes the inserted id, at most one row per application still exists, and the
watermark row was either updated in place (same application-name sequence) or
freshly appended when none existed, with the events table untouched. -/
theorem c2_insert_tracking_watermark (db : DB) (t : Tracking)
    (hinv : atMostOnePerApp db.tracking) :
    ((insert_tracking db t).2 = .error .integrityError ↔
      ∃ m, max_tracking_id db t.application_name = some m ∧
        t.notification_id ≤ m) ∧
    (∀ e, (insert_tracking db t).2 = .error e →
      e = .integrityError ∧ (insert_tracking db t).1 = db) ∧
    ((insert_tracking db t).2 = .ok () →
      max_tracking_id (insert_tracking db t).1 t.application_name =
          some t.notification_id ∧
      atMostOnePerApp (insert_tracking db t).1.tracking ∧
      (insert_tracking db t).1.tracking.map (fun r => r.application_name) =
        (if (db.tracking.find? (fun r => r.application_name ==
            t.application_name)).isSome = true
         then db.tracking.map (fun r => r.application_name)
         else db.tracking.map (fun r => r.application_name) ++
           [t.application_name]) ∧
      (insert_tracking db t).1.events = db.events) := by
  cases hts : insertTrackingSession db t with
  | error e0 =>
    have hr : insert_tracking db t = (db, .error e0) := by
      unfold insert_tracking runTransaction
      dsimp only
      rw [hts]
      rfl
    have hdup := (insertTrackingSessionError db t e0).mp hts
    refine ⟨?_, fun e he => ?_, fun hok => ?_⟩
    · rw [hr]
      constructor
      · intro _
        exact (hasTrackingIdIff db t.application_name t.notification_id).mp hdup.1
      · intro _
        simp [hdup.2]
    · rw [hr] at he
      have he2 : e0 = e := Except.error.inj he
      exact ⟨he2 ▸ hdup.2, by rw [hr]⟩
    · rw [hr] at hok
      exact absurd hok (by simp)
  | ok db1 =>
    have hr : insert_tracking db t = (db1, .ok ()) := by
      unfold insert_tracking runTransaction
      dsimp only
      rw [hts]
      rfl
    have hnodup : ¬(has_tracking_id db t.application_name
        t.notification_id = true) := by
      intro hc
      have hcontra : insertTrackingSession db t = .error .integrityError :=
        (insertTrackingSessionError db t .integrityError).mpr ⟨hc, rfl⟩
      rw [hts] at hcontra
      exact absurd hcontra (by simp)
    obtain ⟨hev, hnext, hmax, hpair, hmap⟩ :=
      insertTrackingSessionOk db t db1 hinv hts
    refine ⟨?_, fun e he => ?_, fun _ => ?_⟩
    · rw [hr]
      constructor
      · intro hc
        exact absurd hc (by simp)
      · intro hm
        exact absurd ((hasTrackingIdIff db t.application_name
          t.notification_id).mpr hm) hnodup
    · rw [hr] at he
      exact absurd he (by simp)
    · exact ⟨by rw [hr]; exact hmax, by rw [hr]; exact hpair,
        by rw [hr]; exact hmap, by rw [hr]; exact hev⟩

/-- C2 witness: with a committed watermark of 5 for app, inserting 3 fails with
IntegrityError and leaves the state unchanged, while inserting 7 succeeds,
updates the single row in place, and makes 7 the committed maximum. -/
theorem c2_insert_tracking_watermark_witness :
    (insert_tracking ⟨[], [⟨"app", 5⟩], 1⟩ ⟨"app", 3⟩).2 =
      .error .integrityError ∧
    (insert_tracking ⟨[], [⟨"app", 5⟩], 1⟩ ⟨"app", 3⟩).1 = ⟨[], [⟨"app", 5⟩], 1⟩ ∧
    max_tracking_id (insert_tracking ⟨[], [⟨"app", 5⟩], 1⟩ ⟨"app", 7⟩).1 "app" =
      some 7 := by
  have h3 := c2_insert_tracking_watermark ⟨[], [⟨"app", 5⟩], 1⟩ ⟨"app", 3⟩
    (by unfold atMostOnePerApp; simp)
  have h7 := c2_insert_tracking_watermark ⟨[], [⟨"app", 5⟩], 1⟩ ⟨"app", 7⟩
    (by unfold atMostOnePerApp; simp)
  have herr : (insert_tracking ⟨[], [⟨"app", 5⟩], 1⟩ ⟨"app", 3⟩).2 =
      .error .integrityError := h3.1.mpr ⟨5, by decide, by decide⟩
  refine ⟨herr, (h3.2.1 .integrityError herr).2, (h7.2.2 ?_).1⟩
  rfl

/-- C1: a process-recorder insert with a tracking value runs the tracking
update and the event insert in one transaction: on any error the committed
state is unchanged (nothing is observed as committed), on success both the
tracking update and the event insert are applied, and in particular a covered
(duplicate) tracking id makes the whole call fail with IntegrityError, leaving
the committed state — events included — exactly as before. -/
theorem c1_process_insert_atomic (db : DB) (es : List StoredEvent) (t : Tracking) :
    (∀ e, (process_insert_events db es (some t)).2 = .error e →
      (process_insert_events db es (some t)).1 = db) ∧
    (∀ ids, (process_insert_events db es (some t)).2 = .ok ids →
      ∃ db1, insertTrackingSession db t = .ok db1 ∧
        process_insert_events db es (some t) =
          ((insertStoredEventsSession db1 es).1,
           .ok (insertStoredEventsSession db1 es).2)) ∧
    (has_tracking_id db t.application_name t.notification_id = true →
      process_insert_events db es (some t) = (db, .error .integrityError)) := by
  cases hts : insertTrackingSession db t with
  | error e0 =>
    have hr : process_insert_events db es (some t) = (db, .error e0) := by
      unfold process_insert_events runTransaction processInsertEventsSession
      dsimp only
      rw [hts]
      rfl
    refine ⟨fun e he => by rw [hr], fun ids hok => ?_, fun hdup => ?_⟩
    · rw [hr] at hok
      exact absurd hok (by simp)
    · have he0 : e0 = .integrityError := by
        have h2 := (insertTrackingSessionError db t e0).mp hts
        exact h2.2
      rw [hr, he0]
  | ok db1 =>
    have hr : process_insert_events db es (some t) =
        ((insertStoredEventsSession db1 es).1,
         .ok (insertStoredEventsSession db1 es).2) := by
      unfold process_insert_events runTransaction processInsertEventsSession
      dsimp only
      rw [hts]
      rfl
    refine ⟨fun e he => ?_, fun ids hok => ⟨db1, rfl, hr⟩, fun hdup => ?_⟩
    · rw [hr] at he
      exact absurd he (by simp)
    · have hcontra : insertTrackingSession db t = .error .integrityError :=
        (insertTrackingSessionError db t .integrityError).mpr ⟨hdup, rfl⟩
      rw [hts] at hcontra
      exact absurd hcontra (by simp)

/-- C1 witness: with a committed watermark of 5 for app, a process insert of
one event with duplicate tracking id 3 fails with IntegrityError and commits
nothing — in particular no event row appears. -/
theorem c1_process_insert_atomic_witness :
    process_insert_events ⟨[], [⟨"app", 5⟩], 1⟩ [⟨"agg", 1, "topic", [7]⟩]
        (some ⟨"app", 3⟩) =
      (⟨[], [⟨"app", 5⟩], 1⟩, .error .integrityError) :=
  (c1_process_insert_atomic ⟨[], [⟨"app", 5⟩], 1⟩ [⟨"agg", 1, "topic", [7]⟩]
    ⟨"app", 3⟩).2.2 (by decide)

/-- Membership in the select_events filter stage is exactly membership in the
events table together with the originator and version-window conditions. -/
theorem memSelectEventsFiltered (db : DB) (oid : String) (gt lte : Option Int)
    (r : StoredEventRecordRow) :
    r ∈ selectEventsFiltered db oid gt lte ↔
      (r ∈ db.events ∧ r.originator_id = oid ∧
       (∀ g, gt = some g → g < r.originator_version) ∧
       (∀ l, lte = some l → r.originator_version ≤ l)) := by
  cases gt <;> cases lte <;>
      simp [selectEventsFiltered, List.mem_filter, and_assoc] <;>
    tauto

/-- The order stage of select_events does not change membership. -/
theorem selectEventsSortedMem (db : DB) (oid : String) (gt lte : Option Int)
    (desc : Bool) (r : StoredEventRecordRow) :
    r ∈ selectEventsSorted db oid gt lte desc ↔
      r ∈ selectEventsFiltered db oid gt lte := by
  unfold selectEventsSorted
  cases desc <;> simp [List.mem_insertionSort]

/-- The ascending order stage is pairwise sorted by version. -/
theorem selectEventsSortedPairwiseAsc (db : DB) (oid : String)
    (gt lte : Option Int) :
    (selectEventsSorted db oid gt lte false).Pairwise
      (fun a b => a.originator_version ≤ b.originator_version) := by
  unfold selectEventsSorted
  rw [if_neg (by simp)]
  exact pairwiseInsertionSortOf
    (fun a b : StoredEventRecordRow =>
      a.originator_version ≤ b.originator_version)
    (fun a b => le_total _ _) (fun a b c h1 h2 => le_trans h1 h2) _

/-- The descending order stage is pairwise sorted by reverse version. -/
theorem selectEventsSortedPairwiseDesc (db : DB) (oid : String)
    (gt lte : Option Int) :
    (selectEventsSorted db oid gt lte true).Pairwise
      (fun a b => b.originator_version ≤ a.originator_version) := by
  unfold selectEventsSorted
  rw [if_pos rfl]
  exact pairwiseInsertionSortOf
    (fun a b : StoredEventRecordRow =>
      b.originator_version ≤ a.originator_version)
    (fun a b => le_total _ _) (fun a b c h1 h2 => le_trans h2 h1) _

/-- Rows returned by the select_events pipeline come from the filter stage. -/
theorem selectEventsRowsSound (db : DB) (oid : String) (gt lte : Option Int)
    (desc : Bool) (limit : Option Nat) (r : StoredEventRecordRow)
    (h : r ∈ selectEventsRows db oid gt lte desc limit) :
    r ∈ selectEventsFiltered db oid gt lte := by
  unfold selectEventsRows at h
  cases limit with
  | none => exact (selectEventsSortedMem db oid gt lte desc r).mp h
  | some n =>
    exact (selectEventsSortedMem db oid gt lte desc r).mp
      (List.take_subset _ _ h)

/-- C4: select_events returns exactly the stored events of the originator whose
version lies strictly above gt and at most lte (when given): every returned
event arises from such a row, the result is ordered ascending by version by
default and descending when requested, a limit bounds the length and truncates
the full ordered result to its first limit elements, every matching row is
returned when no limit is given, and the result is the empty sequence — not an
error — when no row matches. -/
theorem c4_select_events_window (db : DB) (oid : String) (gt lte : Option Int)
    (desc : Bool) (limit : Option Nat) :
    (∀ e ∈ select_events db oid gt lte desc limit,
      ∃ r, r ∈ db.events ∧ rowToStoredEvent r = e ∧ r.originator_id = oid ∧
        (∀ g, gt = some g → g < r.originator_version) ∧
        (∀ l, lte = some l → r.originator_version ≤ l)) ∧
    (desc = false → (select_events db oid gt lte desc limit).Pairwise
      (fun a b => a.originator_version ≤ b.originator_version)) ∧
    (desc = true → (select_events db oid gt lte desc limit).Pairwise
      (fun a b => b.originator_version ≤ a.originator_version)) ∧
    (∀ n, limit = some n →
      (select_events db oid gt lte desc limit).length ≤ n) ∧
    (∀ n, limit = some n → select_events db oid gt lte desc limit =
      (select_events db oid gt lte desc none).take n) ∧
    (limit = none → ∀ r ∈ db.events, r.originator_id = oid →
      (∀ g, gt = some g → g < r.originator_version) →
      (∀ l, lte = some l → r.originator_version ≤ l) →
      rowToStoredEvent r ∈ select_events db oid gt lte desc limit) ∧
    ((∀ r ∈ db.events, ¬(r.originator_id = oid ∧
        (∀ g, gt = some g → g < r.originator_version) ∧
        (∀ l, lte = some l → r.originator_version ≤ l))) →
      select_events db oid gt lte desc limit = []) := by
  have hsound : ∀ e ∈ select_events db oid gt lte desc limit,
      ∃ r, r ∈ db.events ∧ rowToStoredEvent r = e ∧ r.originator_id = oid ∧
        (∀ g, gt = some g → g < r.originator_version) ∧
        (∀ l, lte = some l → r.originator_version ≤ l) := by
    intro e he
    unfold select_events at he
    obtain ⟨r, hr, hre⟩ := List.mem_map.mp he
    obtain ⟨hmem, hoid, hg, hl⟩ := (memSelectEventsFiltered db oid gt lte r).mp
      (selectEventsRowsSound db oid gt lte desc limit r hr)
    exact ⟨r, hmem, hre, hoid, hg, hl⟩
  refine ⟨hsound, fun hd => ?_, fun hd => ?_, fun n hn => ?_, fun n hn => ?_,
    fun hn r hr hoid hg hl => ?_, fun hnone => ?_⟩
  · subst hd
    unfold select_events
    apply List.pairwise_map.mpr
    have hp := selectEventsSortedPairwiseAsc db oid gt lte
    unfold selectEventsRows
    cases limit with
    | none => exact hp
    | some n => exact List.Pairwise.sublist (List.take_sublist _ _) hp
  · subst hd
    unfold select_events
    apply List.pairwise_map.mpr
    have hp := selectEventsSortedPairwiseDesc db oid gt lte
    unfold selectEventsRows
    cases limit with
    | none => exact hp
    | some n => exact List.Pairwise.sublist (List.take_sublist _ _) hp
  · subst hn
    unfold select_events selectEventsRows
    simp only [List.length_map, List.length_take]
    exact min_le_left _ _
  · subst hn
    unfold select_events selectEventsRows
    exact List.map_take ..
  · subst hn
    unfold select_events selectEventsRows
    exact List.mem_map_of_mem rowToStoredEvent
      ((selectEventsSortedMem db oid gt lte desc r).mpr
        ((memSelectEventsFiltered db oid gt lte r).mpr ⟨hr, hoid, hg, hl⟩))
  · cases hres : select_events db oid gt lte desc limit with
    | nil => rfl
    | cons e res0 =>
      obtain ⟨r, hmem, _, hoid, hg, hl⟩ := hsound e (by
        rw [hres]; exact List.mem_cons_self e res0)
      exact absurd ⟨hoid, hg, hl⟩ (hnone r hmem)

/-- C4 witness: on a two-row table for one originator, a window query with
gt = 1, lte = 2 and limit 1 returns exactly the version-2 event; a query for an
absent originator returns the empty sequence. -/
theorem c4_select_events_window_witness :
    (select_events ⟨[⟨1, "agg", 1, "t", .bytes []⟩, ⟨2, "agg", 2, "t", .bytes []⟩],
        [], 3⟩ "agg" (some 1) (some 2) false (some 1)).length ≤ 1 ∧
    select_events ⟨[⟨1, "agg", 1, "t", .bytes []⟩], [], 2⟩ "other"
        none none false none = [] := by
  constructor
  · exact (c4_select_events_window
      ⟨[⟨1, "agg", 1, "t", .bytes []⟩, ⟨2, "agg", 2, "t", .bytes []⟩], [], 3⟩
      "agg" (some 1) (some 2) false (some 1)).2.2.2.1 1 rfl
  · exact (c4_select_events_window ⟨[⟨1, "agg", 1, "t", .bytes []⟩], [], 2⟩
      "other" none none false none).2.2.2.2.2.2 (by decide)

/-- Membership in the select_notifications filter stage is exactly membership
in the events table together with the id-range and topic conditions. -/
theorem memSelectNotificationsFiltered (db : DB) (start stop : Option Int)
    (topics : List String) (inc : Bool) (r : StoredEventRecordRow) :
    r ∈ selectNotificationsFiltered db start stop topics inc ↔
      (r ∈ db.events ∧
       (∀ s, start = some s →
         (inc = true → s ≤ r.id) ∧ (inc = false → s < r.id)) ∧
       (∀ s, stop = some s → r.id ≤ s) ∧
       (topics ≠ [] → r.topic ∈ topics)) := by
  cases start <;> cases stop <;> cases inc <;> cases topics <;>
      simp [selectNotificationsFiltered, List.mem_filter, and_assoc] <;>
    tauto

/-- An element of the sorted pool omitted from its first-n slice is omitted
only because the slice is full, and every sliced element precedes it in the
sort order. -/
theorem takeSortOmitted {α : Type} (rel : α → α → Prop) [DecidableRel rel]
    (htot : ∀ a b, rel a b ∨ rel b a) (htr : ∀ a b c, rel a b → rel b c → rel a c)
    (M : List α) (n : Nat) (r : α)
    (hrM : r ∈ M) (hnot : r ∉ (List.insertionSort rel M).take n) :
    ((List.insertionSort rel M).take n).length = n ∧
    ∀ y ∈ (List.insertionSort rel M).take n, rel y r := by
  have hrQ : r ∈ List.insertionSort rel M := (List.mem_insertionSort rel).mpr hrM
  have hsplit : (List.insertionSort rel M).take n ++
      (List.insertionSort rel M).drop n = List.insertionSort rel M :=
    List.take_append_drop n _
  have hrdrop : r ∈ (List.insertionSort rel M).drop n := by
    rcases List.mem_append.mp (by rw [hsplit]; exact hrQ) with h | h
    · exact absurd h hnot
    · exact h
  have hlen : n < (List.insertionSort rel M).length := by
    by_contra hle
    push_neg at hle
    rw [List.drop_eq_nil_of_le hle] at hrdrop
    exact absurd hrdrop (List.not_mem_nil r)
  constructor
  · rw [List.length_take]
    exact Nat.min_eq_left (Nat.le_of_lt hlen)
  · intro y hy
    have hp : (List.insertionSort rel M).Pairwise rel :=
      pairwiseInsertionSortOf rel htot htr M
    rw [← hsplit] at hp
    exact (List.pairwise_append.mp hp).2.2 y hy r hrdrop

/-- C3: select_notifications returns exactly the notifications in the requested
id range and topic allow-list: every returned notification arises from a
matching row, the result is ordered ascending by id with at most limit
elements, a matching row is omitted only when the result is full with
earlier-id notifications, and on a stream with ids 1..10 a query with start 5
and limit 2 returns exactly notifications 5 and 6. -/
theorem c3_select_notifications_range (db : DB) (start : Option Int)
    (limit : Nat) (stop : Option Int) (topics : List String) (inc : Bool) :
    (∀ x ∈ select_notifications db start limit stop topics inc,
      ∃ r, r ∈ db.events ∧ notificationOfRow r = x ∧
        (∀ s, start = some s →
          (inc = true → s ≤ r.id) ∧ (inc = false → s < r.id)) ∧
        (∀ s, stop = some s → r.id ≤ s) ∧
        (topics ≠ [] → r.topic ∈ topics)) ∧
    (select_notifications db start limit stop topics inc).Pairwise
      (fun a b => a.id ≤ b.id) ∧
    (select_notifications db start limit stop topics inc).length ≤ limit ∧
    (∀ r, r ∈ db.events →
      (∀ s, start = some s →
        (inc = true → s ≤ r.id) ∧ (inc = false → s < r.id)) →
      (∀ s, stop = some s → r.id ≤ s) →
      (topics ≠ [] → r.topic ∈ topics) →
      notificationOfRow r ∉ select_notifications db start limit stop topics inc →
      ((select_notifications db start limit stop topics inc).length = limit ∧
       ∀ y ∈ select_notifications db start limit stop topics inc,
         y.id ≤ r.id)) ∧
    (select_notifications dbTen (some 5) 2 none [] true).map
      (fun x => x.id) = [5, 6] := by
  refine ⟨fun x hx => ?_, ?_, ?_, fun r hr hs hstop ht hnot => ?_, by decide⟩
  · unfold select_notifications selectNotificationRows at hx
    obtain ⟨r, hrtake, hrx⟩ := List.mem_map.mp hx
    have hrM := (List.mem_insertionSort _).mp (List.take_subset _ _ hrtake)
    obtain ⟨hmem, hs, hstop, ht⟩ :=
      (memSelectNotificationsFiltered db start stop topics inc r).mp hrM
    exact ⟨r, hmem, hrx, hs, hstop, ht⟩
  · unfold select_notifications selectNotificationRows
    apply List.pairwise_map.mpr
    exact List.Pairwise.sublist (List.take_sublist _ _)
      (pairwiseInsertionSortOf
        (fun a b : StoredEventRecordRow => a.id ≤ b.id)
        (fun a b => le_total _ _) (fun a b c h1 h2 => le_trans h1 h2) _)
  · unfold select_notifications selectNotificationRows
    simp only [List.length_map, List.length_take]
    exact min_le_left _ _
  · have hrM : r ∈ selectNotificationsFiltered db start stop topics inc :=
      (memSelectNotificationsFiltered db start stop topics inc r).mpr
        ⟨hr, hs, hstop, ht⟩
    have hnotrow : r ∉ (List.insertionSort
        (fun a b : StoredEventRecordRow => a.id ≤ b.id)
        (selectNotificationsFiltered db start stop topics inc)).take limit := by
      intro hc
      exact hnot (List.mem_map_of_mem notificationOfRow hc)
    obtain ⟨hl, hall⟩ := takeSortOmitted
      (fun a b : StoredEventRecordRow => a.id ≤ b.id)
      (fun a b => le_total _ _) (fun a b c h1 h2 => le_trans h1 h2)
      (selectNotificationsFiltered db start stop topics inc) limit r hrM hnotrow
    constructor
    · unfold select_notifications selectNotificationRows
      rw [List.length_map]
      exact hl
    · intro y hy
      unfold select_notifications selectNotificationRows at hy
      obtain ⟨a, ha, hay⟩ := List.mem_map.mp hy
      rw [← hay]
      exact hall a ha

/-- C3 witness: the claim's concrete example — notifications 1..10, start 5,
limit 2 — yields at most two, ascending notifications (exactly ids 5 and 6,
per the closed conjunct of the range theorem). -/
theorem c3_select_notifications_range_witness :
    (select_notifications dbTen (some 5) 2 none [] true).length = 2 ∧
    ∀ y ∈ select_notifications dbTen (some 5) 2 none [] true, y.id ≤ 7 :=
  (c3_select_notifications_range dbTen (some 5) 2 none [] true).2.2.2.1
    (exampleRow 7) (by decide) (by decide) (by decide) (by decide) (by decide)

/-- Reading a row back as a StoredEvent normalizes the binary payload to its
byte content whatever the backend representation. -/
theorem rowToStoredEventNormalizes (r : StoredEventRecordRow) :
    rowToStoredEvent r =
      { originator_id := r.originator_id,
        originator_version := r.originator_version,
        topic := r.topic, state := r.state.toBytes } := by
  obtain ⟨i, o, v, tp, st⟩ := r
  cases st <;> rfl

/-- C5: round-trip — inserting a stored event (empty payloads included) whose
originator does not yet occur and reading it back through select_events yields
a field-for-field equal event with byte-exact state, for every content-
preserving backend representation of the binary payload (memoryview or
concrete bytes). -/
theorem c5_insert_select_roundtrip (db : DB) (e : StoredEvent)
    (wrap : Bytes → ByteRep) (hwrap : ∀ b, (wrap b).toBytes = b)
    (hfresh : ∀ r ∈ db.events, r.originator_id ≠ e.originator_id) :
    select_events (rewrapEvents (insert_events db [e]).1 wrap)
      e.originator_id none none false none = [e] := by
  have hins : (rewrapEvents (insert_events db [e]).1 wrap).events =
      db.events.map (fun r => { r with state := wrap r.state.toBytes }) ++
      [{ id := db.nextId, originator_id := e.originator_id,
         originator_version := e.originator_version, topic := e.topic,
         state := wrap e.state }] := by
    have h1 : (rewrapEvents (insert_events db [e]).1 wrap).events =
        (db.events ++
          [({ id := db.nextId,
              originator_id := e.originator_id,
              originator_version := e.originator_version,
              topic := e.topic,
              state := .bytes e.state } : StoredEventRecordRow)]).map
          (fun r => { r with state := wrap r.state.toBytes }) := rfl
    rw [h1, List.map_append]
    rfl
  unfold select_events selectEventsRows selectEventsSorted selectEventsFiltered
  dsimp only
  rw [if_neg (by simp)]
  rw [hins, List.filter_append]
  have hfilter1 : (db.events.map
      (fun r => { r with state := wrap r.state.toBytes })).filter
      (fun r => r.originator_id == e.originator_id) = [] := by
    apply List.filter_eq_nil_iff.mpr
    intro y hy
    obtain ⟨r, hr, hry⟩ := List.mem_map.mp hy
    simp only [beq_iff_eq]
    rw [← hry]
    exact fun hc => hfresh r hr hc
  rw [hfilter1, List.nil_append, List.filter_cons_of_pos (by simp),
    List.filter_nil, insertionSortSingleton, List.map_cons, List.map_nil,
    rowToStoredEventNormalizes]
  rw [hwrap]

/-- C5 witness: a stored event with an empty payload round-trips byte-exactly
through a backend that returns memoryview handles. -/
theorem c5_insert_select_roundtrip_witness :
    select_events (rewrapEvents
        (insert_events ⟨[], [], 1⟩ [⟨"agg", 1, "topic", []⟩]).1
        ByteRep.memview) "agg" none none false none =
      [⟨"agg", 1, "topic", []⟩] :=
  c5_insert_select_roundtrip ⟨[], [], 1⟩ ⟨"agg", 1, "topic", []⟩
    ByteRep.memview (fun b => rfl) (by simp)
